import Mathlib

/-!
Verification of `tiktok_uploader/upload.py` against its natural-language
specification.

The Python module drives a browser through an upload form.  We embed the
control flow of its functions shallowly: every browser interaction becomes an
event in a trace, and every external wait or lookup whose success the code
branches on becomes a boolean (or boolean-valued) environment parameter.
Python strings are modelled as `List Char` where character-level slicing
matters (`_set_description`), and as Lean `String` where they are only passed
around opaquely (file paths).
-/

namespace TiktokUploader

/-- A browser interaction performed by the form-filling engine.  `raiseTooLong`
marks the point where `DescriptionTooLong` is raised inside the `try` block of
`_set_description` (it is an internal control-flow marker, not a UI action). -/
inductive Ev
  | navigate
  | fileSendKeys (s : String)
  | toggleClick (i : Nat)
  | descClear
  | descSelectAll
  | descDelete
  | descSendKeys (s : List Char)
  | suggClick (isMention : Bool) (name : List Char)
  | raiseTooLong
  | postClick
deriving DecidableEq

/-- Python `s.find(c)` for a one-character needle: index of the first
occurrence, `-1` when absent. -/
def pyFind : List Char → Char → Int
  | [], _ => -1
  | a :: s, c =>
    if a = c then 0
    else
      let r := pyFind s c
      if r = -1 then -1 else r + 1

/-- Python slice `s[:k]` for an `Int` index `k`: non-negative indices truncate
from the front, negative indices count from the end, clamped at `0`. -/
def pySliceTo (s : List Char) (k : Int) : List Char :=
  if 0 ≤ k then s.take k.toNat else s.take (s.length - (-k).toNat)

/-- Python slice `s[k:]` for an `Int` index `k`: non-negative indices drop
from the front, negative indices count from the end, clamped at `0`. -/
def pySliceFrom (s : List Char) (k : Int) : List Char :=
  if 0 ≤ k then s.drop k.toNat else s.drop (s.length - (-k).toNat)

/-- Outcome of one iteration of the `while description:` loop of
`_set_description`: either the iteration completes, emitting events and
leaving a remaining string, or an exception escapes the iteration. -/
inductive StepRes
  | cont (evs : List Ev) (rest : List Char)
  | exnAt (evs : List Ev)
deriving DecidableEq

/-- One iteration of the `while description:` loop of `_set_description`
(upload.py lines 191-218), for non-empty `s`.

`sugg isMention name` models whether the `WebDriverWait` for the
mention/hashtag suggestion element (selector template instantiated with
`name`) succeeds; when it fails the raised timeout escapes the iteration.
`description[1:].split(' ')[0]` is the run of non-space characters after the
trigger; `description[:min_index]` / `description[min_index:]` use Python
slice semantics (note `str.find` yields `-1` when the character is absent,
and `min` is taken over the two raw results). -/
def descStep (sugg : Bool → List Char → Bool) (s : List Char) : StepRes :=
  let nearest_mention := pyFind s '@'
  let nearest_hash := pyFind s '#'
  if nearest_mention = 0 ∨ nearest_hash = 0 then
    let isMention := nearest_mention = 0
    let trigger : Char := if isMention then '@' else '#'
    let name := (s.drop 1).takeWhile (fun c => c != ' ')
    if sugg isMention name then
      .cont [Ev.descSendKeys [trigger], Ev.descSendKeys name,
             Ev.suggClick isMention name]
        (s.drop (name.length + 1))
    else
      .exnAt [Ev.descSendKeys [trigger], Ev.descSendKeys name]
  else
    let min_index := min nearest_mention nearest_hash
    .cont [Ev.descSendKeys (pySliceTo s min_index)] (pySliceFrom s min_index)

/-- Result of running the typing loop with bounded fuel: the loop finished
with the remaining text empty, an exception escaped it, or the fuel ran out
before either happened (the loop is still running). -/
inductive LoopOut
  | ok (evs : List Ev)
  | exnAt (evs : List Ev)
  | fuelOut
deriving DecidableEq

/-- The `while description:` loop of `_set_description`, fuelled: each
recursive call consumes one unit of fuel, so `fuelOut` for every fuel value
means the loop never terminates on that input. -/
def descLoop (sugg : Bool → List Char → Bool) : Nat → List Char → LoopOut
  | _, [] => .ok []
  | 0, _ => .fuelOut
  | fuel + 1, a :: t =>
    match descStep sugg (a :: t) with
    | .exnAt evs => .exnAt evs
    | .cont evs rest =>
      match descLoop sugg fuel rest with
      | .ok evs2 => .ok (evs ++ evs2)
      | .exnAt evs2 => .exnAt (evs ++ evs2)
      | .fuelOut => .fuelOut

/-- `_set_description(driver, description)` (upload.py lines 161-222) as an
event trace.  `description = none` models Python `None` (early return before
any element lookup).  `descFound` models whether the `find_element` for the
description field (line 177) and the non-empty-value wait (line 181) succeed;
when they fail the exception escapes the function (both are outside the
`try`), which we record as `(trace, raised) = ([], true)`.  Otherwise the
field is force-cleared (`_clear`: `clear()`, CTRL-A, DELETE — lines 225-236),
the length guard runs, and the typing loop executes; every exception inside
the `try` (the `DescriptionTooLong` raise or a failed suggestion wait) is
caught by the `except`, which clears the field and retypes the saved original
description.  The result is `none` when the loop is still running after
`fuel` iterations. -/
def _set_description (sugg : Bool → List Char → Bool) (fuel maxLen : Nat)
    (descFound : Bool) (description : Option (List Char)) :
    Option (List Ev × Bool) :=
  match description with
  | none => some ([], false)
  | some s =>
    if descFound then
      let pre := [Ev.descClear, Ev.descSelectAll, Ev.descDelete]
      if s.length > maxLen then
        some (pre ++ [Ev.raiseTooLong, Ev.descClear, Ev.descSendKeys s], false)
      else
        match descLoop sugg fuel s with
        | .ok evs => some (pre ++ evs, false)
        | .exnAt evs =>
          some (pre ++ evs ++ [Ev.descClear, Ev.descSendKeys s], false)
        | .fuelOut => none
    else some ([], true)

/-- `_go_to_upload(driver)` (upload.py lines 139-158): navigate to the upload
URL, then wait for the iframe and the root marker.  `navOk` models whether
those waits succeed; on failure the timeout propagates (no retry). -/
def _go_to_upload (navOk : Bool) : List Ev × Bool :=
  ([Ev.navigate], !navOk)

/-- The `for _ in range(num_retries)` loop of `_set_video` (upload.py lines
251-279), attempting from index `i` with `n` iterations left.  Each attempt
locates the file input and sends `path` to it; `attemptOk i` models whether
the three waits that follow (progress-bar disappearance, upload confirmation,
process confirmation) all succeed.  On success the function returns
immediately; on an exception it logs and loops. -/
def setVideoGo (attemptOk : Nat → Bool) (path : String) : Nat → Nat → List Ev
  | 0, _ => []
  | n + 1, i =>
    Ev.fileSendKeys path ::
      (if attemptOk i then [] else setVideoGo attemptOk path n (i + 1))

/-- `_set_video(driver, *args, path='', num_retries=1, **kwargs)` (upload.py
lines 239-279).  Exhausting all attempts completes silently, so the stage
never raises. -/
def _set_video (attemptOk : Nat → Bool) (path : String) (num_retries : Nat) :
    List Ev × Bool :=
  (setVideoGo attemptOk path num_retries 0, false)

/-- `_set_interactivity(driver, comment=True, stitch=True, duet=True, ...)`
(upload.py lines 300-327).  The three controls are located first (`found`
models those lookups; a failed lookup raises before any click); then each
control is clicked iff the desired flag XOR its `is_selected()` state
(`cur 0` = comment, `cur 1` = stitch, `cur 2` = duet) is true. -/
def _set_interactivity (found : Bool) (cur : Nat → Bool)
    (comment stitch duet : Bool) : List Ev × Bool :=
  if found then
    ((if Bool.xor comment (cur 0) then [Ev.toggleClick 0] else []) ++
     (if Bool.xor stitch (cur 1) then [Ev.toggleClick 1] else []) ++
     (if Bool.xor duet (cur 2) then [Ev.toggleClick 2] else []), false)
  else ([], true)

/-- `_post_video(driver)` (upload.py lines 282-297): click the post button,
then wait for the post-confirmation marker.  `postOk` models that wait; on
failure the timeout propagates (fatal for the job). -/
def _post_video (postOk : Bool) : List Ev × Bool :=
  ([Ev.postClick], !postOk)

/-- The external outcomes one run of the form-filling engine depends on,
plus the two configuration values `_set_description` reads
(`config['max_description_length']` as `maxLen`; the fuel bounds our
observation of the typing loop). -/
structure EngineEnv where
  navOk : Bool
  attemptOk : Nat → Bool
  togglesFound : Bool
  cur : Nat → Bool
  comment : Bool
  stitch : Bool
  duet : Bool
  descFound : Bool
  sugg : Bool → List Char → Bool
  fuel : Nat
  maxLen : Nat
  postOk : Bool

/-- `complete_upload_form(driver, path, description, *args, **kwargs)`
(upload.py lines 121-136).  The stages run in source order and an exception
from a stage propagates, skipping the later stages.

The video stage is called as `_set_video(driver, path)` (line 133): in
`_set_video`'s signature `path` and `num_retries` are keyword-only (declared
after `*args`), so the positional `path` argument is absorbed by `*args` and
the keyword parameters keep their defaults `path=''` and `num_retries=1`.
`num_retires` (so spelled) arrives in `**kwargs` from `upload_videos` and is
forwarded to no stage.  Result `none` means the description typing loop was
still running after `env.fuel` iterations. -/
def complete_upload_form (env : EngineEnv) (path : String)
    (description : Option (List Char)) (num_retires : Nat) :
    Option (List Ev × Bool) :=
  let _ := num_retires
  let _ := path
  let nav := _go_to_upload env.navOk
  if nav.2 then some (nav.1, true) else
  let vid := _set_video env.attemptOk "" 1
  let inter := _set_interactivity env.togglesFound env.cur
      env.comment env.stitch env.duet
  if inter.2 then some (nav.1 ++ vid.1 ++ inter.1, true) else
  match _set_description env.sugg env.fuel env.maxLen env.descFound
      description with
  | none => none
  | some (devs, draised) =>
    if draised then some (nav.1 ++ vid.1 ++ inter.1 ++ devs, true) else
    let post := _post_video env.postOk
    some (nav.1 ++ vid.1 ++ inter.1 ++ devs ++ post.1, post.2)

/-- One upload job, i.e. one dictionary of the `videos` list.  `path = none`
models a missing or `None` path (for which `abspath(video.get('path'))`
raises `TypeError`).  `description` is the value `video.get('description', '')`
produces: `none` models a dictionary that maps `'description'` to Python
`None` (the `get` default only covers an absent key, for which the value is
`some []`, the empty string). -/
structure Job where
  path : Option String
  description : Option (List Char)
deriving DecidableEq

/-- The external collaborators of `upload_videos`: `abspath` (path
resolution), `validPath` (`_check_valid_path`: existence plus supported
extension, applied to the resolved path), the per-job engine environment,
the `num_retires` value the caller supplied, whether an `on_complete`
callback was supplied and whether its invocation on job `i` returns normally
(`callbackOk i = false` models the callback raising), and
`config['quit_on_end']`. -/
structure BatchEnv where
  abspath : String → String
  validPath : String → Bool
  eng : Nat → EngineEnv
  num_retires : Nat
  hasCallback : Bool
  callbackOk : Nat → Bool
  quitOnEnd : Bool

/-- A batch-level observable: an engine event attributed to the job at index
`i`, an `on_complete(video)` invocation for job `i`, or `driver.quit()`. -/
inductive BEv
  | jobEv (i : Nat) (e : Ev)
  | callbackCall (i : Nat)
  | quit
deriving DecidableEq

/-- Outcome of `upload_videos`: the early `return` (Python `None`) for an
empty list, the normal `return failed`, an uncaught exception that escaped
while processing job `atJob`, or a run still inside a non-terminating typing
loop (fuel exhausted). -/
inductive LoopRes
  | noneRet
  | ret (failed : List Job)
  | exn (atJob : Nat)
  | undet
deriving DecidableEq

/-- How far one job gets before the engine is (or is not) invoked:
`skip` — `abspath` raised or `_check_valid_path` failed, the job is recorded
failed and the loop continues (upload.py lines 92-104); `engine` — the engine
ran and either returned or raised (`raised`); `hang` — the engine never
returned (typing-loop fuel exhausted). -/
inductive StepOut
  | skip
  | engine (evs : List Ev) (raised : Bool)
  | hang
deriving DecidableEq

/-- The body of the `for video in videos:` loop up to the engine call
(upload.py lines 90-107): resolve the path (raises for `None`), validate it,
then call `complete_upload_form(driver, path, description,
num_retires=num_retires, ...)`. -/
def jobStep (env : BatchEnv) (i : Nat) (j : Job) : StepOut :=
  match j.path with
  | none => .skip
  | some p =>
    let ap := env.abspath p
    if env.validPath ap then
      match complete_upload_form (env.eng i) ap j.description
          env.num_retires with
      | none => .hang
      | some (evs, raised) => .engine evs raised
    else .skip

/-- `failed.append(video)` observed on the final result: prepends the job to
a normally returned list and leaves an escaped exception (or an undetermined
run) unchanged. -/
def consFail (j : Job) : LoopRes → LoopRes
  | .ret f => .ret (j :: f)
  | r => r

/-- The `for video in videos:` loop of `upload_videos` (upload.py lines
90-113), processing the jobs from index `i`.  A job that fails resolution or
validation is appended to `failed` and skipped before the callback; a job
whose engine call raised is appended to `failed` and still reaches the
callback; `on_complete(video)` is invoked exactly when a callback was
supplied and the job was not skipped, and if it raises the loop aborts with
the exception. -/
def uploadLoop (env : BatchEnv) : Nat → List Job → LoopRes × List BEv
  | _, [] => (.ret [], [])
  | i, j :: rest =>
    match jobStep env i j with
    | .skip =>
      let r := uploadLoop env (i + 1) rest
      (consFail j r.1, r.2)
    | .hang => (.undet, [])
    | .engine evs raised =>
      let tagged := evs.map (BEv.jobEv i)
      if env.hasCallback then
        if env.callbackOk i then
          let r := uploadLoop env (i + 1) rest
          ((if raised then consFail j r.1 else r.1),
           tagged ++ BEv.callbackCall i :: r.2)
        else (.exn i, tagged ++ [BEv.callbackCall i])
      else
        let r := uploadLoop env (i + 1) rest
        ((if raised then consFail j r.1 else r.1), tagged ++ r.2)

/-- `upload_videos(videos=..., ...)` (upload.py lines 48-118): an empty (or
`None`) list returns `None` at once; otherwise the loop runs and, only when
it completes normally, `driver.quit()` fires when `config['quit_on_end']`
is set and the `failed` list is returned. -/
def upload_videos (env : BatchEnv) (videos : List Job) : LoopRes × List BEv :=
  match videos with
  | [] => (.noneRet, [])
  | v :: rest =>
    let r := uploadLoop env 0 (v :: rest)
    match r.1 with
    | .ret failed =>
      (.ret failed, if env.quitOnEnd then r.2 ++ [BEv.quit] else r.2)
    | other => (other, r.2)

/-! Concrete environments and event classifiers used by the theorems below. -/

/-- A suggestion oracle for which every mention/hashtag wait succeeds. -/
def suggT : Bool → List Char → Bool := fun _ _ => true

/-- An engine environment in which every external wait and lookup succeeds. -/
def engOk : EngineEnv :=
  { navOk := true, attemptOk := fun _ => true, togglesFound := true,
    cur := fun _ => true, comment := true, stitch := true, duet := true,
    descFound := true, sugg := suggT, fuel := 8, maxLen := 150,
    postOk := true }

/-- Like `engOk`, but every file-attachment attempt fails its waits. -/
def engFail : EngineEnv := { engOk with attemptOk := fun _ => false }

/-- A well-formed job with an empty description. -/
def jobA : Job := { path := some "video.mp4", description := some [] }

/-- A job whose (resolved) path fails `_check_valid_path`under `benvMix`. -/
def jobBad : Job := { path := some "bad.txt", description := some [] }

/-- A batch environment in which everything succeeds and no callback or
quit-on-end is configured. -/
def benvOk : BatchEnv :=
  { abspath := fun s => "/abs/" ++ s, validPath := fun _ => true,
    eng := fun _ => engOk, num_retires := 1, hasCallback := false,
    callbackOk := fun _ => true, quitOnEnd := false }

/-- Like `benvOk`, but every file-attachment attempt fails. -/
def benvFail : BatchEnv := { benvOk with eng := fun _ => engFail }

/-- Like `benvOk`, but path validation always fails and a callback is
supplied. -/
def benvBadCb : BatchEnv :=
  { benvOk with validPath := fun _ => false, hasCallback := true }

/-- Like `benvOk`, but the supplied callback raises on every job, and
quit-on-end is configured. -/
def benvCbRaise : BatchEnv :=
  { benvOk with
      hasCallback := true
      callbackOk := fun _ => false
      quitOnEnd := true }

/-- Like `benvOk`, but only the resolved path of `jobA` validates and a
callback is supplied. -/
def benvMix : BatchEnv :=
  { benvOk with
      validPath := fun s => s == "/abs/video.mp4"
      hasCallback := true }

/-- Recognises a string sent to the file-input element. -/
def isFileSend : Ev → Bool
  | .fileSendKeys _ => true
  | _ => false

/-- `isFileSend` on batch-level events. -/
def isFileSendB : BEv → Bool
  | .jobEv _ e => isFileSend e
  | _ => false

/-- Every engine event is a UI mutation except navigation and the
`raiseTooLong` control-flow marker. -/
def isUIMutation : Ev → Bool
  | .navigate => false
  | .raiseTooLong => false
  | _ => true

/-- Recognises an `on_complete` invocation in the batch trace. -/
def isCallbackEv : BEv → Bool
  | .callbackCall _ => true
  | _ => false

/-- The subtrace of `on_complete` invocations. -/
def cbEvents (tr : List BEv) : List BEv := tr.filter isCallbackEv

/-- Whether a job passes path resolution and `_check_valid_path`, i.e.
whether `upload_videos` invokes the form-filling engine for it. -/
def reachesEngine (env : BatchEnv) (j : Job) : Bool :=
  match j.path with
  | none => false
  | some p => env.validPath (env.abspath p)

/-- The job index a batch-level event belongs to (`quit` is indexless). -/
def bevIdx : BEv → Nat
  | .jobEv i _ => i
  | .callbackCall i => i
  | .quit => 0

/-! Claims about the description stage. -/

/-- Claim C2 (refuted): on the trigger-free description `"hello"` one
iteration of the typing loop computes `min(find('@'), find('#')) =
min(-1, -1) = -1` and therefore types `description[:-1] = "hell"`, leaving
`"o"` — not the full literal run `"hello"` the claim's
absent-trigger-is-infinitely-far rule prescribes, so the typed tokens can
never concatenate back to the original string. -/
theorem desc_literal_run_stops_short :
    descStep suggT "hello".data =
      StepRes.cont [Ev.descSendKeys "hell".data] "o".data
    ∧ "hell".data ≠ "hello".data := by
  decide

/-- A non-empty input on which one loop iteration emits events but leaves the
remaining text unchanged is never finished, whatever the fuel. -/
theorem descLoop_fixpoint (sugg : Bool → List Char → Bool) (evs : List Ev)
    (s : List Char) (h1 : s ≠ [])
    (h2 : descStep sugg s = .cont evs s) :
    ∀ fuel, descLoop sugg fuel s = .fuelOut := by
  intro fuel
  induction fuel with
  | zero =>
    cases s with
    | nil => exact absurd rfl h1
    | cons a t => rfl
  | succ n ih =>
    cases s with
    | nil => exact absurd rfl h1
    | cons a t => simp [descLoop, h2, ih]

/-- Claim C3 (refuted): the typing loop does not terminate on the one-character
description `"a"`: both `find` calls yield `-1`, the iteration types
`"a"[:-1] = ""` and leaves `"a"[-1:] = "a"` unchanged, so no amount of fuel
finishes the loop. -/
theorem desc_loop_never_terminates (sugg : Bool → List Char → Bool)
    (fuel : Nat) : descLoop sugg fuel "a".data = LoopOut.fuelOut :=
  descLoop_fixpoint sugg [Ev.descSendKeys []] "a".data (by simp)
    rfl fuel

/-- Claim C4 counterexample: with `max_description_length = 2`, the
three-character description `"abc"` triggers `DescriptionTooLong`, yet the
events preceding the raise are not mutation-free — the stage has already
force-cleared the auto-populated field. -/
theorem desc_too_long_mutates_before_raise :
    ¬ ((_set_description suggT 5 2 true (some "abc".data)).map
        (fun p => (p.1.takeWhile (fun e => e != Ev.raiseTooLong)).filter
          isUIMutation) = some []) := by
  decide

/-- Claim C4 as amended: for every description longer than the configured
maximum, the stage waits for the auto-populated value and force-clears the
field, then raises `DescriptionTooLong` before any typing; the typing loop is
never entered and the fallback restores the original text verbatim. -/
theorem desc_too_long_trace (sugg : Bool → List Char → Bool)
    (fuel maxLen : Nat) (s : List Char) (h : s.length > maxLen) :
    _set_description sugg fuel maxLen true (some s) =
      some ([Ev.descClear, Ev.descSelectAll, Ev.descDelete, Ev.raiseTooLong,
             Ev.descClear, Ev.descSendKeys s], false) := by
  simp [_set_description, h]

/-- `desc_too_long_trace` exercised at `maxLen = 2`, `s = "abc"`. -/
theorem desc_too_long_trace_witness :
    _set_description suggT 5 2 true (some "abc".data) =
      some ([Ev.descClear, Ev.descSelectAll, Ev.descDelete, Ev.raiseTooLong,
             Ev.descClear, Ev.descSendKeys "abc".data], false) :=
  desc_too_long_trace suggT 5 2 "abc".data (by decide)

/-- Claim C8 counterexample: for the empty-string description (which is what
`video.get('description', '')` yields when no description is given) the stage
is not a no-op — its trace is not the empty, exception-free one. -/
theorem desc_empty_string_not_noop :
    ¬ (_set_description suggT 5 150 true (some []) = some ([], false)) := by
  decide

/-- The typing loop on an empty remaining text finishes at once, whatever the
fuel. -/
theorem descLoop_nil (sugg : Bool → List Char → Bool) (fuel : Nat) :
    descLoop sugg fuel [] = LoopOut.ok [] := by
  cases fuel <;> rfl

/-- Claim C8 as amended: an absent (`None`) description makes the stage a
strict no-op, but an empty-string description still waits for the
auto-populated field and force-clears it (then types nothing). -/
theorem desc_empty_clears_only (sugg : Bool → List Char → Bool)
    (fuel maxLen : Nat) :
    _set_description sugg fuel maxLen true (some []) =
      some ([Ev.descClear, Ev.descSelectAll, Ev.descDelete], false)
    ∧ ∀ descFound, _set_description sugg fuel maxLen descFound none =
        some ([], false) := by
  refine ⟨?_, fun _ => rfl⟩
  simp [_set_description, descLoop_nil]

/-! Claims about the interactivity stage. -/

/-- Claim C9 (confirmed): with the three controls located, a click is issued
for a flag iff the desired state differs from the observed `is_selected()`
state — the XOR truth table — so no click is issued when they agree. -/
theorem interactivity_click_iff_diff (cur : Nat → Bool)
    (comment stitch duet : Bool) :
    ((Ev.toggleClick 0 ∈ (_set_interactivity true cur comment stitch duet).1)
        ↔ comment ≠ cur 0)
    ∧ ((Ev.toggleClick 1 ∈ (_set_interactivity true cur comment stitch duet).1)
        ↔ stitch ≠ cur 1)
    ∧ ((Ev.toggleClick 2 ∈ (_set_interactivity true cur comment stitch duet).1)
        ↔ duet ≠ cur 2) := by
  cases h0 : cur 0 <;> cases h1 : cur 1 <;> cases h2 : cur 2 <;>
    cases comment <;> cases stitch <;> cases duet <;>
      simp [_set_interactivity, h0, h1, h2]

/-! Claims about the file-attachment stage and its call chain. -/

/-- Claim C1 (refuted): the Batch Uploader resolves `"video.mp4"` to
`"/abs/video.mp4"`, but the only string the engine sends to the file-input
element is `""` — `complete_upload_form` calls `_set_video(driver, path)`,
whose keyword-only `path` parameter silently keeps its default `''` while the
positional argument is absorbed by `*args`. -/
theorem file_input_gets_empty_string :
    ((upload_videos benvOk [jobA]).2.filter isFileSendB
        = [BEv.jobEv 0 (Ev.fileSendKeys "")])
    ∧ benvOk.abspath "video.mp4" = "/abs/video.mp4"
    ∧ ("" : String) ≠ "/abs/video.mp4" := by
  decide

/-- Claim C5 (refuted): whatever `num_retires` value the caller hands to
`upload_videos`, a job whose file-attachment waits always fail is attempted
exactly once — the value travels in `**kwargs` to `complete_upload_form`,
which never forwards it to `_set_video`, so the loop bound is the default
`1`. -/
theorem retries_never_forwarded (r : Nat) :
    ((upload_videos { benvFail with num_retires := r } [jobA]).2.filter
      isFileSendB).length = 1 :=
  rfl

/-! Claims about the Batch Uploader loop. -/

/-- Inverting `consFail` on a normal return. -/
theorem consFail_ret (j : Job) (r : LoopRes) (f : List Job)
    (h : consFail j r = LoopRes.ret f) :
    ∃ f2, r = LoopRes.ret f2 ∧ f = j :: f2 := by
  cases r with
  | ret f2 =>
    refine ⟨f2, rfl, ?_⟩
    injection h with h2
    exact h2.symm
  | noneRet => simp [consFail] at h
  | exn i => simp [consFail] at h
  | undet => simp [consFail] at h

/-- Whenever the per-job loop returns normally, the accumulated `failed`
list is a sublist of the processed jobs. -/
theorem uploadLoop_ret_sublist (env : BatchEnv) :
    ∀ (jobs : List Job) (k : Nat) (f : List Job),
      (uploadLoop env k jobs).1 = LoopRes.ret f → List.Sublist f jobs := by
  intro jobs
  induction jobs with
  | nil =>
    intro k f h
    injection h with h2
    exact h2 ▸ List.nil_sublist []
  | cons j rest ih =>
    intro k f h
    cases hs : jobStep env k j with
    | skip =>
      simp only [uploadLoop, hs] at h
      obtain ⟨f2, hr, rfl⟩ := consFail_ret _ _ _ h
      exact List.Sublist.cons₂ j (ih (k + 1) f2 hr)
    | hang =>
      simp only [uploadLoop, hs] at h
      exact LoopRes.noConfusion h
    | engine evs raised =>
      simp only [uploadLoop, hs] at h
      cases hcbv : env.hasCallback with
      | true =>
        cases hok : env.callbackOk k with
        | true =>
          simp only [hcbv, hok, if_true] at h
          cases raised with
          | true =>
            obtain ⟨f2, hr, rfl⟩ := consFail_ret _ _ _ h
            exact List.Sublist.cons₂ j (ih (k + 1) f2 hr)
          | false =>
            exact List.Sublist.cons j (ih (k + 1) f h)
        | false =>
          simp [hcbv, hok] at h
      | false =>
        simp only [hcbv] at h
        cases raised with
        | true =>
          obtain ⟨f2, hr, rfl⟩ := consFail_ret _ _ _ h
          exact List.Sublist.cons₂ j (ih (k + 1) f2 hr)
        | false =>
          exact List.Sublist.cons j (ih (k + 1) f h)



/-- Claim C7 (confirmed): whenever `upload_videos` returns a `failed` list,
it is a sublist of the input job list — so it is no longer than the input,
every element of it is drawn from the input, and relative order is
preserved. -/
theorem upload_videos_failed_sublist (env : BatchEnv) (jobs f : List Job)
    (h : (upload_videos env jobs).1 = LoopRes.ret f) :
    List.Sublist f jobs ∧ f.length ≤ jobs.length ∧ ∀ j ∈ f, j ∈ jobs := by
  have hsub : List.Sublist f jobs := by
    cases jobs with
    | nil => exact LoopRes.noConfusion h
    | cons v rest =>
      cases hr : (uploadLoop env 0 (v :: rest)).1 with
      | ret failed =>
        have he : f = failed := by
          simp only [upload_videos, hr] at h
          injection h with h2
          exact h2.symm
        exact he ▸ uploadLoop_ret_sublist env (v :: rest) 0 failed hr
      | noneRet =>
        simp only [upload_videos, hr] at h
        exact LoopRes.noConfusion h
      | exn i =>
        simp only [upload_videos, hr] at h
        exact LoopRes.noConfusion h
      | undet =>
        simp only [upload_videos, hr] at h
        exact LoopRes.noConfusion h
  exact ⟨hsub, hsub.length_le, fun j hj => hsub.subset hj⟩

/-- `upload_videos_failed_sublist` exercised on a two-job batch whose first
job fails validation. -/
theorem upload_videos_failed_sublist_witness :
    List.Sublist [jobBad] [jobBad, jobA]
    ∧ [jobBad].length ≤ [jobBad, jobA].length
    ∧ ∀ j ∈ [jobBad], j ∈ [jobBad, jobA] :=
  upload_videos_failed_sublist benvMix [jobBad, jobA] [jobBad] (by decide)

/-- A job is skipped before the engine call exactly when it fails path
resolution or validation. -/
theorem jobStep_skip_iff (env : BatchEnv) (i : Nat) (j : Job) :
    jobStep env i j = StepOut.skip ↔ reachesEngine env j = false := by
  cases j with
  | mk p d =>
    cases p with
    | none => simp [jobStep, reachesEngine]
    | some s =>
      by_cases hv : env.validPath (env.abspath s) = true
      · cases he : complete_upload_form (env.eng i) (env.abspath s) d
            env.num_retires with
        | none => simp [jobStep, reachesEngine, hv, he]
        | some pr =>
          obtain ⟨evs, raised⟩ := pr
          simp [jobStep, reachesEngine, hv, he]
      · simp [jobStep, reachesEngine, hv]

/-- Engine events attributed to a job are never callback invocations. -/
theorem cbEvents_jobEvs (i : Nat) (evs : List Ev) :
    cbEvents (evs.map (BEv.jobEv i)) = [] := by
  rw [cbEvents, List.filter_eq_nil_iff]
  intro a ha
  obtain ⟨e, he, rfl⟩ := List.mem_map.mp ha
  simp [isCallbackEv]



/-- `cbEvents` distributes over concatenation. -/
theorem cbEvents_append (a b : List BEv) :
    cbEvents (a ++ b) = cbEvents a ++ cbEvents b :=
  List.filter_append a b

/-- A leading callback invocation stays in the callback subtrace. -/
theorem cbEvents_cons_callback (i : Nat) (tr : List BEv) :
    cbEvents (BEv.callbackCall i :: tr) = BEv.callbackCall i :: cbEvents tr := by
  simp [cbEvents, List.filter_cons, isCallbackEv]

/-- On a normally returning run in which no callback invocation raises, the
callback subtrace of the per-job loop lists exactly one invocation, in
order, for each job that reaches the engine (provided a callback was
supplied). -/
theorem uploadLoop_cbEvents (env : BatchEnv)
    (hcb : ∀ i, env.callbackOk i = true) :
    ∀ (jobs : List Job) (k : Nat) (f : List Job),
      (uploadLoop env k jobs).1 = LoopRes.ret f →
      cbEvents (uploadLoop env k jobs).2 =
        ((List.enumFrom k jobs).filter
            (fun x => env.hasCallback && reachesEngine env x.2)).map
          (fun x => BEv.callbackCall x.1) := by
  intro jobs
  induction jobs with
  | nil => intro k f h; rfl
  | cons j rest ih =>
    intro k f h
    cases hs : jobStep env k j with
    | skip =>
      have hre : reachesEngine env j = false := (jobStep_skip_iff env k j).mp hs
      simp only [uploadLoop, hs] at h ⊢
      obtain ⟨f2, hr, rfl⟩ := consFail_ret _ _ _ h
      rw [List.enumFrom_cons]
      simp only [List.filter_cons, hre, Bool.and_false]
      simpa using ih (k + 1) f2 hr
    | hang =>
      simp only [uploadLoop, hs] at h
      exact LoopRes.noConfusion h
    | engine evs raised =>
      have hre : reachesEngine env j = true := by
        cases hre2 : reachesEngine env j with
        | false =>
          exact absurd ((jobStep_skip_iff env k j).mpr hre2) (by simp [hs])
        | true => rfl
      cases hcbv : env.hasCallback with
      | true =>
        have hok := hcb k
        simp only [uploadLoop, hs, hcbv, hok, if_true] at h ⊢
        have hr2 : ∃ f2, (uploadLoop env (k + 1) rest).1 = LoopRes.ret f2 := by
          cases raised with
          | true =>
            obtain ⟨f2, hr, _⟩ := consFail_ret _ _ _ h
            exact ⟨f2, hr⟩
          | false => exact ⟨f, h⟩
        obtain ⟨f2, hr⟩ := hr2
        have ih2 := ih (k + 1) f2 hr
        simp only [hcbv, Bool.true_and] at ih2
        simp [List.enumFrom_cons, List.filter_cons, hre, hcbv, cbEvents_append,
          cbEvents_jobEvs, cbEvents_cons_callback, ih2]
      | false =>
        simp only [uploadLoop, hs, hcbv, Bool.false_eq_true, if_false] at h ⊢
        have hr2 : ∃ f2, (uploadLoop env (k + 1) rest).1 = LoopRes.ret f2 := by
          cases raised with
          | true =>
            obtain ⟨f2, hr, _⟩ := consFail_ret _ _ _ h
            exact ⟨f2, hr⟩
          | false => exact ⟨f, h⟩
        obtain ⟨f2, hr⟩ := hr2
        have ih2 := ih (k + 1) f2 hr
        simp only [hcbv, Bool.false_and, List.filter_false, List.map_nil] at ih2 ⊢
        rw [cbEvents_append, cbEvents_jobEvs]
        simp [ih2]



/-- Claim C6 counterexample: a supplied callback is never invoked for a job
that fails existence/extension validation — the `continue` in the loop body
skips the `on_complete` call, so its invocation count for that job is `0`,
not `1`. -/
theorem callback_skipped_for_invalid_job :
    ((upload_videos benvBadCb [jobA]).2.filter
      (fun e => e == BEv.callbackCall 0)).length ≠ 1 := by
  decide

/-- Claim C6 as amended: when a completion callback is supplied (and no
invocation of it raises), it is invoked exactly once per job that passes
path resolution and validation — regardless of whether the engine succeeded
or failed for that job — and not at all for jobs that fail resolution or
validation. -/
theorem callback_iff_reaches_engine (env : BatchEnv) (jobs f : List Job)
    (hcb : ∀ i, env.callbackOk i = true)
    (h : (upload_videos env jobs).1 = LoopRes.ret f) :
    cbEvents ((upload_videos env jobs).2) =
      ((List.enumFrom 0 jobs).filter
          (fun x => env.hasCallback && reachesEngine env x.2)).map
        (fun x => BEv.callbackCall x.1) := by
  cases jobs with
  | nil => rfl
  | cons v rest =>
    cases hr : (uploadLoop env 0 (v :: rest)).1 with
    | ret failed =>
      have hmain := uploadLoop_cbEvents env hcb (v :: rest) 0 failed hr
      simp only [upload_videos, hr]
      cases hq : env.quitOnEnd with
      | true =>
        simp only [hq, if_true]
        rw [cbEvents_append]
        have hnil : cbEvents [BEv.quit] = [] := rfl
        rw [hnil, List.append_nil]
        exact hmain
      | false =>
        simp only [hq, Bool.false_eq_true, if_false]
        exact hmain
    | noneRet =>
      simp only [upload_videos, hr] at h
      exact LoopRes.noConfusion h
    | exn i =>
      simp only [upload_videos, hr] at h
      exact LoopRes.noConfusion h
    | undet =>
      simp only [upload_videos, hr] at h
      exact LoopRes.noConfusion h

/-- `callback_iff_reaches_engine` exercised on a batch with one invalid and
one valid job: exactly one callback fires, for the valid job. -/
theorem callback_iff_reaches_engine_witness :
    cbEvents ((upload_videos benvMix [jobBad, jobA]).2) =
      ((List.enumFrom 0 [jobBad, jobA]).filter
          (fun x => benvMix.hasCallback && reachesEngine benvMix x.2)).map
        (fun x => BEv.callbackCall x.1) :=
  callback_iff_reaches_engine benvMix [jobBad, jobA] [jobBad]
    (fun _ => rfl) (by decide)

/-- Engine events attributed to a job are never the session release. -/
theorem quit_notin_jobEvs (i : Nat) (evs : List Ev) :
    BEv.quit ∉ evs.map (BEv.jobEv i) := by
  intro hmem
  obtain ⟨e, he, heq⟩ := List.mem_map.mp hmem
  exact BEv.noConfusion heq

/-- `consFail` preserves an escaped exception. -/
theorem consFail_exn (j : Job) (r : LoopRes) (i : Nat)
    (h : consFail j r = LoopRes.exn i) : r = LoopRes.exn i := by
  cases r with
  | ret f => exact LoopRes.noConfusion h
  | noneRet => exact h
  | exn i2 => exact h
  | undet => exact h

/-- Conditionally appending to `failed` preserves an escaped exception. -/
theorem addFail_exn (j : Job) (raised : Bool) (r : LoopRes) (i : Nat)
    (h : (if raised then consFail j r else r) = LoopRes.exn i) :
    r = LoopRes.exn i := by
  cases raised with
  | true => exact consFail_exn j r i h
  | false => exact h



/-- When an exception escapes the per-job loop at job `i`, it came from the
`on_complete` invocation for job `i` (a callback was supplied and raised
there), that invocation is the last event of the trace, no event of any
later job was emitted, and the session was never released. -/
theorem uploadLoop_exn (env : BatchEnv) :
    ∀ (jobs : List Job) (k i : Nat),
      (uploadLoop env k jobs).1 = LoopRes.exn i →
      env.hasCallback = true ∧ env.callbackOk i = false ∧ k ≤ i
      ∧ BEv.quit ∉ (uploadLoop env k jobs).2
      ∧ (∀ e ∈ (uploadLoop env k jobs).2, bevIdx e ≤ i)
      ∧ (uploadLoop env k jobs).2.getLast? = some (BEv.callbackCall i) := by
  intro jobs
  induction jobs with
  | nil => intro k i h; exact LoopRes.noConfusion h
  | cons j rest ih =>
    intro k i h
    cases hs : jobStep env k j with
    | skip =>
      simp only [uploadLoop, hs] at h ⊢
      have hr := consFail_exn _ _ _ h
      obtain ⟨h1, h2, h3, h4, h5, h6⟩ := ih (k + 1) i hr
      exact ⟨h1, h2, Nat.le_trans (Nat.le_succ k) h3, h4, h5, h6⟩
    | hang =>
      simp only [uploadLoop, hs] at h
      exact LoopRes.noConfusion h
    | engine evs raised =>
      cases hcbv : env.hasCallback with
      | false =>
        simp only [uploadLoop, hs, hcbv, Bool.false_eq_true, if_false] at h
        have hr := addFail_exn _ _ _ _ h
        obtain ⟨h1, _⟩ := ih (k + 1) i hr
        exact absurd h1 (by simp [hcbv])
      | true =>
        cases hok : env.callbackOk k with
        | true =>
          simp only [uploadLoop, hs, hcbv, hok, if_true] at h ⊢
          have hr := addFail_exn _ _ _ _ h
          obtain ⟨h1, h2, h3, h4, h5, h6⟩ := ih (k + 1) i hr
          have hkle : k ≤ i := Nat.le_trans (Nat.le_succ k) h3
          refine ⟨trivial, h2, hkle, ?_, ?_, ?_⟩
          · intro hmem
            rcases List.mem_append.mp hmem with hm | hm
            · exact quit_notin_jobEvs k evs hm
            · rcases List.mem_cons.mp hm with hm2 | hm2
              · exact BEv.noConfusion hm2
              · exact h4 hm2
          · intro e hmem
            rcases List.mem_append.mp hmem with hm | hm
            · obtain ⟨e2, he2, rfl⟩ := List.mem_map.mp hm
              exact hkle
            · rcases List.mem_cons.mp hm with hm2 | hm2
              · rw [hm2]
                exact hkle
              · exact h5 e hm2
          · rw [List.getLast?_append_cons]
            cases hr2 : (uploadLoop env (k + 1) rest).2 with
            | nil =>
              rw [hr2] at h6
              exact absurd h6 (by simp)
            | cons b t =>
              rw [hr2] at h6
              rw [List.getLast?_cons_cons]
              exact h6
        | false =>
          simp only [uploadLoop, hs, hcbv, hok, Bool.false_eq_true,
            if_true, if_false] at h ⊢
          injection h with h2
          subst h2
          refine ⟨trivial, hok, Nat.le_refl k, ?_, ?_, ?_⟩
          · intro hmem
            rcases List.mem_append.mp hmem with hm | hm
            · exact quit_notin_jobEvs k evs hm
            · rcases List.mem_cons.mp hm with hm2 | hm2
              · exact BEv.noConfusion hm2
              · exact absurd hm2 (List.not_mem_nil _)
          · intro e hmem
            rcases List.mem_append.mp hmem with hm | hm
            · obtain ⟨e2, he2, rfl⟩ := List.mem_map.mp hm
              exact Nat.le_refl k
            · rcases List.mem_cons.mp hm with hm2 | hm2
              · rw [hm2]
                exact Nat.le_refl k
              · exact absurd hm2 (List.not_mem_nil _)
          · rw [List.getLast?_append_cons]
            rfl

/-- Claim C10 (confirmed): if the `on_complete` callback raises while
processing some job, the exception propagates out of `upload_videos`
uncaught: a callback was supplied and raised on that job, `driver.quit()`
never fires even when quit-on-end is configured, no `failed` list is
returned, no event of a later job occurs, and the trace ends at the raising
callback invocation. -/
theorem callback_exn_aborts_batch (env : BatchEnv) (jobs : List Job) (i : Nat)
    (h : (upload_videos env jobs).1 = LoopRes.exn i) :
    env.hasCallback = true ∧ env.callbackOk i = false
    ∧ BEv.quit ∉ (upload_videos env jobs).2
    ∧ (∀ f, (upload_videos env jobs).1 ≠ LoopRes.ret f)
    ∧ (∀ e ∈ (upload_videos env jobs).2, bevIdx e ≤ i)
    ∧ (upload_videos env jobs).2.getLast? = some (BEv.callbackCall i) := by
  cases jobs with
  | nil => exact LoopRes.noConfusion h
  | cons v rest =>
    cases hr : (uploadLoop env 0 (v :: rest)).1 with
    | ret failed =>
      simp only [upload_videos, hr] at h
      exact LoopRes.noConfusion h
    | noneRet =>
      simp only [upload_videos, hr] at h
      exact LoopRes.noConfusion h
    | undet =>
      simp only [upload_videos, hr] at h
      exact LoopRes.noConfusion h
    | exn i2 =>
      simp only [upload_videos, hr] at h ⊢
      injection h with h2
      subst h2
      obtain ⟨h1, h2, h3, h4, h5, h6⟩ := uploadLoop_exn env (v :: rest) 0 i2 hr
      exact ⟨h1, h2, h4, fun f hf => LoopRes.noConfusion hf, h5, h6⟩

/-- `callback_exn_aborts_batch` exercised on a two-job batch whose callback
raises on the first job, with quit-on-end configured. -/
theorem callback_exn_aborts_batch_witness :
    BEv.quit ∉ (upload_videos benvCbRaise [jobA, jobA]).2
    ∧ (upload_videos benvCbRaise [jobA, jobA]).2.getLast? =
        some (BEv.callbackCall 0) :=
  ⟨(callback_exn_aborts_batch benvCbRaise [jobA, jobA] 0 (by decide)).2.2.1,
   (callback_exn_aborts_batch benvCbRaise [jobA, jobA] 0 (by decide)).2.2.2.2.2⟩

end TiktokUploader
